import Mathlib

/-!
Verification development for the PyWAC per-process audio capture library.

The definitions below are a shallow embedding of the Python sources under
the package directory: the unified audio container (audio_data.py), the
float-to-int16 conversion utility (utils.py), the session directory layer
(sessions.py and the volume functions of api.py), the recording paths
(api.py, unified_recording.py, recorder.py) and the queue-based streaming
capture wrapper (queue_streaming.py).  Machine floats are modelled as
rational numbers; numpy arrays are modelled as a shape together with the
row-major flat data; Python exceptions are modelled with Except.

The native (C++) backends - SessionEnumerator, SimpleLoopback and
QueueBasedProcessCapture - ship as compiled extensions and their sources
are not part of the repository; where a claim depends on them they are
modelled from the specification, and each such definition is marked with a
doc comment starting with: Modelled from the spec.
-/

namespace PyWAC

/-- Truncation of a rational toward zero, the semantics of Python `int(x)`
and of a numpy cast from a float value to an integer type. -/
def ratTrunc (q : ℚ) : ℤ :=
  if 0 ≤ q then ⌊q⌋ else -⌊-q⌋

/-- Two's-complement wrap-around into the signed 16-bit range, the
semantics of a numpy `astype` into int16 for an out-of-range value. -/
def int16Wrap (z : ℤ) : ℤ :=
  (z + 32768) % 65536 - 32768

/-- `np.clip(x, -1.0, 1.0)` applied to one sample. -/
def clipUnit (x : ℚ) : ℚ := min 1 (max (-1) x)

/-- Elementwise numpy cast of a float array to int16. -/
def npAstypeInt16 (xs : List ℚ) : List ℚ :=
  xs.map (fun x => ((int16Wrap (ratTrunc x) : ℤ) : ℚ))

/-- The dtype tags of the numpy arrays the library manipulates. -/
inductive DType
  | f32
  | f64
  | i16
  | i32
  deriving DecidableEq

/-- A numpy array: a shape together with the row-major flat data.  A
well-formed array has as many data entries as the product of its shape. -/
structure NpArray where
  shape : List ℕ
  data : List ℚ
  dtype : DType
  deriving DecidableEq

/-- Shape/data agreement of a numpy array. -/
def NpArray.wf (a : NpArray) : Prop :=
  a.data.length = a.shape.prod

instance (a : NpArray) : Decidable a.wf := by
  unfold NpArray.wf; infer_instance

/-- Number of axes of the array. -/
def NpArray.ndim (a : NpArray) : ℕ := a.shape.length

/-- The Python exceptions that the embedded code can raise. -/
inductive PyErr
  | valueError
  | attributeError
  | runtimeError
  deriving DecidableEq

/-- The unified audio container of audio_data.py: samples plus sample rate
and channel count. -/
structure AudioData where
  samples : NpArray
  sample_rate : ℕ
  channels : ℕ
  deriving DecidableEq

/-- Construction of an AudioData, running the `__post_init__` validation
and normalisation of audio_data.py: a 1-D array is kept for mono, trimmed
to an even length and reshaped to (n, 2) for two channels, and rejected
otherwise; a 2-D array must have its second axis equal to the channel
count; any other rank is rejected. -/
def audioDataInit (samples : NpArray) (rate channels : ℕ) :
    Except PyErr AudioData :=
  match samples.shape with
  | [n] =>
    if channels = 1 then .ok ⟨samples, rate, channels⟩
    else if channels = 2 then
      .ok ⟨⟨[(n - n % 2) / 2, 2],
            if n % 2 = 0 then samples.data else samples.data.take (n - n % 2),
            samples.dtype⟩, rate, channels⟩
    else .error .valueError
  | [n, c] =>
    if c = channels then .ok ⟨⟨[n, c], samples.data, samples.dtype⟩, rate, channels⟩
    else .error .valueError
  | _ => .error .valueError

/-- `num_frames`: length of a 1-D array, first shape entry otherwise. -/
def AudioData.num_frames (a : AudioData) : ℕ :=
  if a.samples.ndim = 1 then a.samples.data.length
  else a.samples.shape.headD 0

/-- `to_interleaved`: flattening a row-major array yields its flat data in
every branch of the source. -/
def AudioData.to_interleaved (a : AudioData) : List ℚ :=
  if a.channels = 1 then a.samples.data
  else if a.samples.ndim = 2 then a.samples.data
  else a.samples.data

/-- `to_float32`: int16 divides by 32768, int32 by 2^31, other dtypes are
cast with their values kept; the result goes through the constructor. -/
def AudioData.to_float32 (a : AudioData) : Except PyErr AudioData :=
  if a.samples.dtype = .f32 then .ok a
  else
    let d :=
      if a.samples.dtype = .i16 then a.samples.data.map (· / 32768)
      else if a.samples.dtype = .i32 then a.samples.data.map (· / 2147483648)
      else a.samples.data
    audioDataInit ⟨a.samples.shape, d, .f32⟩ a.sample_rate a.channels

/-- `to_int16`: float samples are clipped to [-1, 1], scaled by 32767 and
cast to int16; other non-int16 dtypes are cast directly. -/
def AudioData.to_int16 (a : AudioData) : Except PyErr AudioData :=
  if a.samples.dtype = .i16 then .ok a
  else if a.samples.dtype = .f32 ∨ a.samples.dtype = .f64 then
    let clipped := a.samples.data.map clipUnit
    let scaled := clipped.map (· * 32767)
    audioDataInit ⟨a.samples.shape, npAstypeInt16 scaled, .i16⟩
      a.sample_rate a.channels
  else
    audioDataInit ⟨a.samples.shape, npAstypeInt16 a.samples.data, .i16⟩
      a.sample_rate a.channels

/-- The rows of a 2-D array of shape (n, c) stored row-major. -/
def splitRows (n c : ℕ) (xs : List ℚ) : List (List ℚ) :=
  (List.range n).map (fun i => (xs.drop (i * c)).take c)

/-- The dtype numpy gives to a mean or true division of this dtype. -/
def DType.meanDType : DType → DType
  | .f32 => .f32
  | d => if d = .f64 then .f64 else .f64

/-- Every second element starting at the given offset, `xs[k::2]`. -/
def strideTwo (xs : List ℚ) (k : ℕ) : List ℚ :=
  ((xs.drop k).enum.filter (fun p => p.1 % 2 = 0)).map (·.2)

/-- `to_mono`: average the channels of a 2-D array along axis 1; on a 1-D
array with more than one declared channel the source splits the even and
odd strides and averages them, which numpy rejects when the two strides
have different lengths. -/
def AudioData.to_mono (a : AudioData) : Except PyErr AudioData :=
  if a.channels = 1 then .ok a
  else if a.samples.ndim = 2 then
    let n := a.samples.shape.headD 0
    let c := (a.samples.shape.drop 1).headD 0
    let mono := (splitRows n c a.samples.data).map (fun r => r.sum / (c : ℚ))
    audioDataInit ⟨[n], mono, a.samples.dtype.meanDType⟩ a.sample_rate 1
  else
    let left := strideTwo a.samples.data 0
    let right := strideTwo a.samples.data 1
    if left.length = right.length then
      let mono := (left.zip right).map (fun p => (p.1 + p.2) / 2)
      audioDataInit ⟨[mono.length], mono, a.samples.dtype.meanDType⟩
        a.sample_rate 1
    else .error .valueError

/-- A written PCM WAV container: header values plus the int16 sample
values in the order their bytes are written. -/
structure WavFile where
  nchannels : ℕ
  sampwidth : ℕ
  framerate : ℕ
  frames : List ℚ
  deriving DecidableEq

/-- `AudioData.save`: convert to int16 and write the samples (interleaved
for more than one channel, which is again the flat data) under a header
taken from the container. -/
def AudioData.save (a : AudioData) : Except PyErr WavFile := do
  let ai ← a.to_int16
  let dataBytes := if ai.channels = 1 then ai.samples.data else ai.to_interleaved
  .ok ⟨a.channels, 2, a.sample_rate, dataBytes⟩

/-- `AudioData.load`: read the header, decode int16 or int32 samples, and
reshape to (n, channels) when the file has more than one channel.  A frame
payload that does not divide by the channel count makes the reshape
fail. -/
def AudioData.load (w : WavFile) : Except PyErr AudioData :=
  let dt : Except PyErr DType :=
    if w.sampwidth = 2 then .ok .i16
    else if w.sampwidth = 4 then .ok .i32
    else .error .valueError
  match dt with
  | .error e => .error e
  | .ok d =>
    if 1 < w.nchannels then
      if w.frames.length % w.nchannels = 0 then
        audioDataInit ⟨[w.frames.length / w.nchannels, w.nchannels], w.frames, d⟩
          w.framerate w.nchannels
      else .error .valueError
    else
      audioDataInit ⟨[w.frames.length], w.frames, d⟩ w.framerate w.nchannels

/-- `AudioData.from_interleaved`: wrap a flat buffer and construct. -/
def AudioData.from_interleaved (d : List ℚ) (dt : DType) (rate channels : ℕ) :
    Except PyErr AudioData :=
  audioDataInit ⟨[d.length], d, dt⟩ rate channels

/-- `AudioData.__eq__`: `np.array_equal` compares shape and values, then
the sample rate and channel count are compared. -/
def AudioData.pyEq (a b : AudioData) : Bool :=
  a.samples.shape == b.samples.shape && a.samples.data == b.samples.data
    && a.sample_rate == b.sample_rate && a.channels == b.channels

/-- queue_streaming.py calls `AudioData.create_empty()`, but no such
method is defined anywhere in the repository, so the attribute access
raises AttributeError at call time. -/
def AudioData.create_empty : Except PyErr AudioData :=
  .error .attributeError

/-- `convert_float32_to_int16` of utils.py: per sample, clamp with
`max(-1.0, min(1.0, s))` and append `int(s * 32767)`. -/
def convert_float32_to_int16 (audio_data : List ℚ) : List ℤ :=
  audio_data.foldl
    (fun acc sample => acc ++ [ratTrunc (max (-1) (min 1 sample) * 32767)]) []

/-- A chunk as popped from the queue backend: its `data` array of shape
(frames, channels) plus its `silent` flag. -/
structure QChunk where
  rows : List (List ℚ)
  silent : Bool
  deriving DecidableEq

/-- The chunk-collecting loop shared by `_record_with_loopback` of api.py
and `_capture_audio` of unified_recording.py: each popped chunk whose
`silent` flag is unset has its data appended; silent chunks are skipped. -/
def recordCollect (chunks : List QChunk) : List (List (List ℚ)) :=
  chunks.foldl (fun acc c => if c.silent then acc else acc ++ [c.rows]) []

/-- Total frame count of the packets the endpoint produced over the
capture, silent gap chunks included. -/
def producedFrames (chunks : List QChunk) : ℕ :=
  (chunks.map (fun c => c.rows.length)).sum

/-- Total frame count of the non-silent chunks only. -/
def nonSilentFrames (chunks : List QChunk) : ℕ :=
  (((chunks.filter (fun c => !c.silent)).map (fun c => c.rows.length))).sum

/-- `_record_with_loopback` of api.py, abstracted over the sequence of
chunks the backend delivers while the session runs: collect the non-silent
chunks, concatenate them along axis 0, flatten, and build an AudioData at
48 kHz stereo; with no collected chunks the function returns None, and the
surrounding try/except turns any exception into None as well. -/
def recordWithLoopback (chunks : List QChunk) : Option AudioData :=
  let collected := recordCollect chunks
  if collected.isEmpty then none
  else
    match AudioData.from_interleaved ((collected.map List.flatten).flatten) .f32 48000 2 with
    | .ok a => some a
    | .error _ => none

/-- `_capture_audio` of unified_recording.py: the same loop, except that
an empty collection yields the empty AudioData
`AudioData(np.array([]), 48000, 2)` instead of None. -/
def captureAudio (chunks : List QChunk) : Option AudioData :=
  let collected := recordCollect chunks
  if collected.isEmpty then
    match audioDataInit ⟨[0], [], .f64⟩ 48000 2 with
    | .ok a => some a
    | .error _ => none
  else
    match AudioData.from_interleaved ((collected.map List.flatten).flatten) .f32 48000 2 with
    | .ok a => some a
    | .error _ => none

/-- Python `str.lower()` on a character list. -/
def pyLower (s : List Char) : List Char := s.map Char.toLower

/-- Does the second list occur at the start of the first? -/
def listStartsWith : List Char → List Char → Bool
  | _, [] => true
  | [], _ :: _ => false
  | a :: as, b :: bs => a == b && listStartsWith as bs

/-- Python substring containment `needle in hay`. -/
def strContains (hay needle : List Char) : Bool :=
  match hay with
  | [] => needle.isEmpty
  | _ :: t => listStartsWith hay needle || strContains t needle

/-- One row of the session directory as the native layer reports it. -/
structure RawSession where
  process_id : ℕ
  process_name : List Char
  display_name : List Char
  state : ℕ
  volume : ℚ
  muted : Bool
  deriving DecidableEq

/-- Modelled from the spec: the native SessionEnumerator extension is a
compiled backend whose source is not in the repository; per the session
directory section of the spec it is stateless across calls and reads and
writes the per-session scalar volume and the distinct per-session mute
flag of the default render endpoint, so it is modelled as the current list
of sessions of that endpoint. -/
structure SessionEnumerator where
  sessions : List RawSession
  deriving DecidableEq

/-- Clamp a volume to [0, 1]. -/
def clamp01 (v : ℚ) : ℚ := max 0 (min 1 v)

/-- Set the scalar volume of the first session with the given process id,
clamped to [0, 1]; report whether a matching session existed. -/
def setFirstVolume : List RawSession → ℕ → ℚ → List RawSession × Bool
  | [], _, _ => ([], false)
  | s :: rest, pid, v =>
    if s.process_id = pid then ({ s with volume := clamp01 v } :: rest, true)
    else
      let r := setFirstVolume rest pid v
      (s :: r.1, r.2)

/-- Set the mute flag of the first session with the given process id;
report whether a matching session existed. -/
def setFirstMute : List RawSession → ℕ → Bool → List RawSession × Bool
  | [], _, _ => ([], false)
  | s :: rest, pid, m =>
    if s.process_id = pid then ({ s with muted := m } :: rest, true)
    else
      let r := setFirstMute rest pid m
      (s :: r.1, r.2)

/-- Modelled from the spec: `enumerate_sessions` returns every session of
the default render endpoint. -/
def SessionEnumerator.enumerate_sessions (e : SessionEnumerator) :
    List RawSession :=
  e.sessions

/-- Modelled from the spec: `set_session_volume` finds the first session
whose process id matches and sets its scalar volume, clamped to [0, 1],
returning whether a matching session existed. -/
def SessionEnumerator.set_session_volume (e : SessionEnumerator) (pid : ℕ)
    (v : ℚ) : SessionEnumerator × Bool :=
  let r := setFirstVolume e.sessions pid v
  (⟨r.1⟩, r.2)

/-- Modelled from the spec: `set_session_mute` is the same for the
distinct per-session mute flag, which the platform provides. -/
def SessionEnumerator.set_session_mute (e : SessionEnumerator) (pid : ℕ)
    (m : Bool) : SessionEnumerator × Bool :=
  let r := setFirstMute e.sessions pid m
  (⟨r.1⟩, r.2)

/-- The AudioSession dataclass of sessions.py. -/
structure AudioSession where
  process_id : ℕ
  process_name : List Char
  display_name : List Char
  state : ℕ
  volume : ℚ
  muted : Bool
  deriving DecidableEq

/-- `AudioSession.is_active`. -/
def AudioSession.is_active (s : AudioSession) : Bool := s.state == 1

/-- Building an AudioSession from a native row, as list_sessions does. -/
def convSession (raw : RawSession) : AudioSession :=
  ⟨raw.process_id, raw.process_name, raw.display_name, raw.state,
   raw.volume, raw.muted⟩

/-- SessionManager of sessions.py holds the native enumerator. -/
structure SessionManager where
  enumerator : SessionEnumerator
  deriving DecidableEq

/-- Does a session row match the query name, case-insensitively and by
substring, the way find_session tests it? -/
def nameMatch (app_name : List Char) (raw : RawSession) : Bool :=
  strContains (pyLower raw.process_name) (pyLower app_name)

/-- `SessionManager.list_sessions`: one enumeration, each row converted
and appended unless filtered out by active_only. -/
def SessionManager.list_sessions (m : SessionManager) (active_only : Bool) :
    List AudioSession :=
  m.enumerator.enumerate_sessions.foldl
    (fun acc raw =>
      let session := convSession raw
      if !active_only || session.is_active then acc ++ [session] else acc) []

/-- `SessionManager.find_session`: first session of a full enumeration
whose lowered process name contains the lowered query. -/
def SessionManager.find_session (m : SessionManager) (app_name : List Char) :
    Option AudioSession :=
  (m.list_sessions false).find?
    (fun s => strContains (pyLower s.process_name) (pyLower app_name))

/-- `SessionManager.set_volume`: volume outside [0, 1] raises ValueError;
otherwise find the session by name and apply the native pid-based setter,
returning False when no session matched. -/
def SessionManager.set_volume (m : SessionManager) (app_name : List Char)
    (volume : ℚ) : Except PyErr (SessionManager × Bool) :=
  if 0 ≤ volume ∧ volume ≤ 1 then
    match m.find_session app_name with
    | none => .ok (m, false)
    | some s =>
      let r := m.enumerator.set_session_volume s.process_id volume
      .ok (⟨r.1⟩, r.2)
  else .error .valueError

/-- `SessionManager.get_volume`: volume of the found session, else None. -/
def SessionManager.get_volume (m : SessionManager) (app_name : List Char) :
    Option ℚ :=
  match m.find_session app_name with
  | none => none
  | some s => some s.volume

/-- `SessionManager.set_mute`: find by name, then apply the native
pid-based mute setter (the native layer provides `set_session_mute`, so
the hasattr test of the source takes its first branch), returning False
when no session matched. -/
def SessionManager.set_mute (m : SessionManager) (app_name : List Char)
    (mute : Bool) : SessionManager × Bool :=
  match m.find_session app_name with
  | none => (m, false)
  | some s =>
    let r := m.enumerator.set_session_mute s.process_id mute
    (⟨r.1⟩, r.2)

/-- `SessionManager.is_muted`: mute flag of the found session, else None. -/
def SessionManager.is_muted (m : SessionManager) (app_name : List Char) :
    Option Bool :=
  match m.find_session app_name with
  | none => none
  | some s => some s.muted

/-- `set_app_volume` of api.py delegates to the manager. -/
def set_app_volume (m : SessionManager) (app_name : List Char) (volume : ℚ) :
    Except PyErr (SessionManager × Bool) :=
  m.set_volume app_name volume

/-- `mute_app` of api.py. -/
def mute_app (m : SessionManager) (app_name : List Char) :
    SessionManager × Bool :=
  m.set_mute app_name true

/-- `unmute_app` of api.py. -/
def unmute_app (m : SessionManager) (app_name : List Char) :
    SessionManager × Bool :=
  m.set_mute app_name false

/-- `adjust_volume` of api.py: read the current volume by name, clamp the
adjusted value into [0, 1], apply it, and return the new volume when the
setter reported a match, else None. -/
def adjust_volume (m : SessionManager) (app_name : List Char) (delta : ℚ) :
    Except PyErr (SessionManager × Option ℚ) :=
  match m.get_volume app_name with
  | none => .ok (m, none)
  | some current =>
    let new_volume := max 0 (min 1 (current + delta))
    match m.set_volume app_name new_volume with
    | .error e => .error e
    | .ok (m', b) => .ok (m', if b then some new_volume else none)

/-- AudioRecorder of recorder.py.  The native SimpleLoopback handle is
modelled by its presence (the stop path only tests `self._loopback` for
truthiness and calls its stop inside a try/except that swallows every
error); the recording thread likewise by whether one is alive. -/
structure AudioRecorder where
  sample_rate : ℕ
  channels : ℕ
  loopback : Bool
  audio_buffer : List ℚ
  is_recording : Bool
  recording_thread : Bool
  start_time : Option ℚ
  duration : Option ℚ
  deriving DecidableEq

/-- A freshly constructed AudioRecorder. -/
def AudioRecorder.init (sample_rate channels : ℕ) : AudioRecorder :=
  ⟨sample_rate, channels, false, [], false, false, none, none⟩

/-- The empty AudioData the recorder returns when there is nothing to
stop: `np.array([], dtype=np.float32).reshape(0, channels)`. -/
def AudioRecorder.emptyAudio (r : AudioRecorder) : Except PyErr AudioData :=
  audioDataInit ⟨[0, r.channels], [], .f32⟩ r.sample_rate r.channels

/-- `AudioRecorder._cleanup`. -/
def AudioRecorder.cleanup (r : AudioRecorder) : AudioRecorder :=
  { r with loopback := false, audio_buffer := [], is_recording := false,
           recording_thread := false, start_time := none, duration := none }

/-- The value `AudioRecorder.stop` hands back: an empty AudioData when
there was nothing to stop, otherwise the copied raw buffer list (the
source returns the plain list in that branch). -/
inductive RecorderStopValue
  | audio (a : AudioData)
  | rawBuffer (xs : List ℚ)
  deriving DecidableEq

/-- `AudioRecorder.stop`: with neither a recording thread nor a loopback
handle, return an empty AudioData and leave the state untouched; otherwise
clear the recording flag, join the thread, stop the loopback (errors
swallowed), copy the buffer, clean up, and return the copy. -/
def AudioRecorder.stop (r : AudioRecorder) :
    Except PyErr (AudioRecorder × RecorderStopValue) :=
  if ¬ r.recording_thread ∧ ¬ r.loopback then do
    let a ← r.emptyAudio
    .ok (r, .audio a)
  else
    .ok (r.cleanup, .rawBuffer r.audio_buffer)

/-- The recorder state after one stop call (stop always succeeds for the
recorder, so the error case below is vacuous). -/
def AudioRecorder.stateAfterStop (r : AudioRecorder) : AudioRecorder :=
  match r.stop with
  | .ok p => p.1
  | .error _ => r

/-- Modelled from the spec: the native QueueBasedProcessCapture backend of
process_loopback_queue is a compiled extension whose source is not in the
repository; per the capture engine and frame queue sections of the spec it
owns a lifecycle flag and the bounded chunk queue. -/
structure QueueBackend where
  capturing : Bool
  queue : List QChunk
  total_chunks : ℕ
  dropped_chunks : ℕ
  capture_errors : ℕ
  deriving DecidableEq

/-- Modelled from the spec: backend `stop` leaves the running state. -/
def QueueBackend.stopBackend (b : QueueBackend) : QueueBackend :=
  { b with capturing := false }

/-- Modelled from the spec: `is_capturing`. -/
def QueueBackend.is_capturing (b : QueueBackend) : Bool := b.capturing

/-- Modelled from the spec: `pop_chunks` dequeues up to the requested
number of chunks in FIFO order. -/
def QueueBackend.pop_chunks (b : QueueBackend) (max_chunks : ℕ) :
    QueueBackend × List QChunk :=
  ({ b with queue := b.queue.drop max_chunks }, b.queue.take max_chunks)

/-- QueueBasedStreamingCapture of queue_streaming.py: the Python wrapper
around the queue backend, with its polling thread flag, accumulated chunk
arrays and counters. -/
structure QueueBasedStreamingCapture where
  process_id : ℕ
  sample_rate : ℕ
  batch_size : ℕ
  capture : Option QueueBackend
  stop_event : Bool
  polling_thread : Bool
  audio_buffer : List (List (List ℚ))
  total_chunks : ℕ
  total_polls : ℕ
  start_time : Option ℚ
  deriving DecidableEq

/-- A freshly constructed QueueBasedStreamingCapture (defaults of the
source: pid 0, 48 kHz, batch size 10, no backend yet). -/
def QueueBasedStreamingCapture.init : QueueBasedStreamingCapture :=
  ⟨0, 48000, 10, none, false, false, [], 0, 0, none⟩

/-- `_poll_once`: nothing happens without a running backend; otherwise pop
a batch and append each chunk's data array to the buffer, returning the
number of chunks received. -/
def QueueBasedStreamingCapture.poll_once (q : QueueBasedStreamingCapture) :
    QueueBasedStreamingCapture × ℕ :=
  match q.capture with
  | none => (q, 0)
  | some be =>
    if ¬ be.is_capturing then (q, 0)
    else
      let q1 := { q with total_polls := q.total_polls + 1 }
      let r := be.pop_chunks q.batch_size
      if r.2.isEmpty then ({ q1 with capture := some r.1 }, 0)
      else
        ({ q1 with capture := some r.1,
                   audio_buffer := q1.audio_buffer ++ r.2.map (fun c => c.rows),
                   total_chunks := q1.total_chunks + r.2.length }, r.2.length)

/-- `np.concatenate(arrays, axis=0)` over 2-D arrays: stack the rows,
rejecting arrays whose row widths disagree. -/
def npConcatRows (arrays : List (List (List ℚ))) :
    Except PyErr (List (List ℚ)) :=
  let rows := arrays.flatten
  if rows.all (fun r => r.length = (rows.headD []).length) then .ok rows
  else .error .valueError

/-- `QueueBasedStreamingCapture.stop`: without a backend it calls the
missing `AudioData.create_empty` and so raises; otherwise it signals the
polling thread, joins it, stops the backend, performs the final poll
(which is a no-op because the backend no longer reports capturing),
concatenates the buffered arrays into a stereo AudioData - again calling
the missing `AudioData.create_empty` when the buffer is empty - prints the
statistics, and drops the backend reference. -/
def QueueBasedStreamingCapture.stop (q : QueueBasedStreamingCapture) :
    Except PyErr (QueueBasedStreamingCapture × AudioData) :=
  match q.capture with
  | none => do
    let a ← AudioData.create_empty
    .ok (q, a)
  | some be => do
    let q1 := { q with stop_event := true, polling_thread := false,
                       capture := some be.stopBackend }
    let q2 := q1.poll_once.1
    let audio ←
      if ¬ q2.audio_buffer.isEmpty then do
        let rows ← npConcatRows q2.audio_buffer
        audioDataInit ⟨[rows.length, (rows.headD []).length], rows.flatten, .f32⟩
          q.sample_rate 2
      else AudioData.create_empty
    .ok ({ q2 with capture := none }, audio)

instance {ε α : Type _} [DecidableEq ε] [DecidableEq α] :
    DecidableEq (Except ε α) := fun x y =>
  match x, y with
  | .ok a, .ok b =>
    if h : a = b then isTrue (by rw [h])
    else isFalse (fun hc => h (Except.ok.inj hc))
  | .error a, .error b =>
    if h : a = b then isTrue (by rw [h])
    else isFalse (fun hc => h (Except.error.inj hc))
  | .ok _, .error _ => isFalse (fun hc => Except.noConfusion hc)
  | .error _, .ok _ => isFalse (fun hc => Except.noConfusion hc)

lemma foldl_append_if {α β : Type _} (g : α → β) (p : α → Bool)
    (l : List α) (acc : List β) :
    l.foldl (fun acc a => if p a then acc ++ [g a] else acc) acc
      = acc ++ (l.filter p).map g := by
  induction l generalizing acc with
  | nil => simp
  | cons x t ih =>
    by_cases hx : p x
    · simp [List.filter_cons, hx, ih]
    · simp [List.filter_cons, hx, ih]

lemma foldl_append_map {α β : Type _} (g : α → β) (l : List α) (acc : List β) :
    l.foldl (fun acc a => acc ++ [g a]) acc = acc ++ l.map g := by
  induction l generalizing acc with
  | nil => simp
  | cons x t ih => simp [ih]

lemma find?_eq_some_split {α : Type _} {p : α → Bool} {l : List α} {a : α}
    (h : l.find? p = some a) :
    ∃ l₁ l₂, l = l₁ ++ a :: l₂ ∧ (∀ x ∈ l₁, p x = false) ∧ p a = true := by
  induction l with
  | nil => simp at h
  | cons x t ih =>
    by_cases hx : p x
    · have hxa : x = a := by
        rw [List.find?_cons_of_pos _ hx] at h
        exact Option.some.inj h
      subst hxa
      exact ⟨[], t, rfl, by simp, hx⟩
    · rw [List.find?_cons_of_neg _ (by simpa using hx)] at h
      obtain ⟨l₁, l₂, hl, hfalse, hp⟩ := ih h
      exact ⟨x :: l₁, l₂, by simp [hl], by
        intro y hy
        rcases List.mem_cons.mp hy with h1 | h1
        · subst h1; simpa using hx
        · exact hfalse y h1, hp⟩

lemma exists_first_split {α : Type _} (p : α → Bool) (l : List α)
    (h : ∃ x ∈ l, p x = true) :
    ∃ l₁ t l₂, l = l₁ ++ t :: l₂ ∧ (∀ u ∈ l₁, p u = false) ∧ p t = true := by
  induction l with
  | nil => simp at h
  | cons x t ih =>
    by_cases hx : p x
    · exact ⟨[], x, t, by simp, by simp, hx⟩
    · obtain ⟨y, hy, hpy⟩ := h
      rcases List.mem_cons.mp hy with h1 | h1
      · subst h1; exact absurd hpy hx
      · obtain ⟨l₁, u, l₂, hl, hfalse, hp⟩ := ih ⟨y, h1, hpy⟩
        exact ⟨x :: l₁, u, l₂, by simp [hl], by
          intro z hz
          rcases List.mem_cons.mp hz with h2 | h2
          · subst h2; simpa using hx
          · exact hfalse z h2, hp⟩

lemma clipUnit_eq_clamp (x : ℚ) : clipUnit x = max (-1) (min 1 x) := by
  rw [clipUnit, min_def, min_def, max_def, max_def]
  split_ifs <;> linarith

lemma ratTrunc_bound {x : ℚ} (h : |x| ≤ 1) :
    -32767 ≤ ratTrunc (x * 32767) ∧ ratTrunc (x * 32767) ≤ 32767 := by
  obtain ⟨hlo, hhi⟩ := abs_le.mp h
  by_cases hx : 0 ≤ x * 32767
  · rw [ratTrunc, if_pos hx]
    constructor
    · have : (0 : ℤ) ≤ ⌊x * 32767⌋ := Int.floor_nonneg.mpr hx
      omega
    · have : ⌊x * 32767⌋ ≤ ⌊(32767 : ℚ)⌋ := by
        apply Int.floor_le_floor
        nlinarith
      simpa using this
  · rw [ratTrunc, if_neg hx]
    push_neg at hx
    constructor
    · have : ⌊-(x * 32767)⌋ ≤ ⌊(32767 : ℚ)⌋ := by
        apply Int.floor_le_floor
        nlinarith
      simp at this
      omega
    · have : (0 : ℤ) ≤ ⌊-(x * 32767)⌋ := Int.floor_nonneg.mpr (by linarith)
      omega

lemma clipUnit_abs_le (x : ℚ) : |clipUnit x| ≤ 1 := by
  rw [abs_le, clipUnit]
  exact ⟨le_min (by norm_num) (le_max_left _ _), min_le_left _ _⟩

lemma int16Wrap_eq_self {z : ℤ} (h1 : -32768 ≤ z) (h2 : z ≤ 32767) :
    int16Wrap z = z := by
  rw [int16Wrap, Int.emod_eq_of_lt (by omega) (by omega)]
  omega

lemma npAstypeInt16_scaled_clip (xs : List ℚ) :
    npAstypeInt16 ((xs.map clipUnit).map (· * 32767))
      = xs.map (fun x => ((ratTrunc (max (-1) (min 1 x) * 32767) : ℤ) : ℚ)) := by
  rw [npAstypeInt16, List.map_map, List.map_map]
  apply List.map_congr_left
  intro x _
  have hb := ratTrunc_bound (clipUnit_abs_le x)
  simp only [Function.comp]
  rw [int16Wrap_eq_self (by omega) hb.2, clipUnit_eq_clamp]

lemma convert_float32_to_int16_eq (xs : List ℚ) :
    convert_float32_to_int16 xs
      = xs.map (fun x => ratTrunc (max (-1) (min 1 x) * 32767)) := by
  rw [convert_float32_to_int16, foldl_append_map]
  simp

/-- The shapes an AudioData can have after passing `__post_init__`: a 1-D
array for a single declared channel, or a 2-D array whose second axis is
the channel count; in both cases the flat data has the matching length. -/
def goodShape (a : AudioData) : Prop :=
  (a.samples.shape = [a.samples.data.length] ∧ a.channels = 1)
  ∨ (∃ n, a.samples.shape = [n, a.channels]
      ∧ a.samples.data.length = n * a.channels)

lemma audioDataInit_ok_dtype {s : NpArray} {r c : ℕ} {a : AudioData}
    (h : audioDataInit s r c = .ok a) : a.samples.dtype = s.dtype := by
  rw [audioDataInit] at h
  split at h
  · split at h
    · cases h; rfl
    · split at h
      · cases h; rfl
      · cases h
  · split at h
    · cases h; rfl
    · cases h
  · cases h

lemma audioDataInit_ok_fields {s : NpArray} {r c : ℕ} {a : AudioData}
    (h : audioDataInit s r c = .ok a) :
    a.sample_rate = r ∧ a.channels = c := by
  rw [audioDataInit] at h
  split at h
  · split at h
    · cases h; exact ⟨rfl, rfl⟩
    · split at h
      · cases h; exact ⟨rfl, rfl⟩
      · cases h
  · split at h
    · cases h; exact ⟨rfl, rfl⟩
    · cases h
  · cases h

lemma audioDataInit_ok_good {s : NpArray} {r c : ℕ} {a : AudioData}
    (hw : s.wf) (h : audioDataInit s r c = .ok a) : goodShape a := by
  rw [NpArray.wf] at hw
  rw [audioDataInit] at h
  split at h
  · next n hn =>
    rw [hn] at hw
    simp at hw
    split at h
    · next h1 =>
      cases h
      exact Or.inl ⟨by rw [hn, hw], h1⟩
    · split at h
      · next h1 h2 =>
        subst h2
        cases h
        refine Or.inr ⟨(n - n % 2) / 2, rfl, ?_⟩
        by_cases he : n % 2 = 0
        · simp only [if_pos he]
          omega
        · simp only [if_neg he]
          rw [List.length_take]
          omega
      · cases h
  · next n k hn =>
    rw [hn] at hw
    simp at hw
    split at h
    · next h1 =>
      cases h
      exact Or.inr ⟨n, by rw [h1], by rw [hw, h1]⟩
    · cases h
  · cases h

lemma goodShape_interleaved {a : AudioData} (hg : goodShape a) :
    a.to_interleaved.length = a.num_frames * a.channels := by
  have hdata : a.to_interleaved = a.samples.data := by
    rw [AudioData.to_interleaved]
    split_ifs <;> rfl
  rw [hdata]
  rcases hg with ⟨hsh, hch⟩ | ⟨n, hsh, hlen⟩
  · rw [AudioData.num_frames, if_pos (by rw [NpArray.ndim, hsh]; rfl), hch,
      mul_one]
  · rw [AudioData.num_frames, hlen]
    rw [NpArray.ndim, hsh]
    simp

/-- Re-running the constructor on an array with the shape of a good
AudioData and data of the same length succeeds and keeps everything. -/
lemma audioDataInit_preserving {a : AudioData} (hg : goodShape a)
    (d : List ℚ) (dt : DType) (r : ℕ)
    (_hlen : d.length = a.samples.data.length) :
    audioDataInit ⟨a.samples.shape, d, dt⟩ r a.channels
      = .ok ⟨⟨a.samples.shape, d, dt⟩, r, a.channels⟩ := by
  rcases hg with ⟨hsh, hch⟩ | ⟨n, hsh, _⟩
  · rw [audioDataInit]
    simp only [hsh, hch]
    rfl
  · rw [audioDataInit]
    simp only [hsh]
    simp

lemma goodShape_rebuild {a : AudioData} (hg : goodShape a)
    (d : List ℚ) (dt : DType) (r : ℕ)
    (hlen : d.length = a.samples.data.length) :
    goodShape ⟨⟨a.samples.shape, d, dt⟩, r, a.channels⟩ := by
  rcases hg with ⟨hsh, hch⟩ | ⟨n, hsh, hl⟩
  · exact Or.inl ⟨by simpa [hsh] using congrArg (fun k => [k]) hlen.symm, hch⟩
  · exact Or.inr ⟨n, hsh, by rw [hlen, hl]⟩

lemma to_float32_good {a : AudioData} (hg : goodShape a) :
    ∃ b, a.to_float32 = .ok b ∧ goodShape b := by
  rw [AudioData.to_float32]
  by_cases hdt : a.samples.dtype = .f32
  · exact ⟨a, by rw [if_pos hdt], hg⟩
  · rw [if_neg hdt]
    by_cases h16 : a.samples.dtype = .i16
    · simp only [if_pos h16]
      exact ⟨_, audioDataInit_preserving hg _ _ _ (by simp),
        goodShape_rebuild hg _ _ _ (by simp)⟩
    · simp only [if_neg h16]
      by_cases h32 : a.samples.dtype = .i32
      · simp only [if_pos h32]
        exact ⟨_, audioDataInit_preserving hg _ _ _ (by simp),
          goodShape_rebuild hg _ _ _ (by simp)⟩
      · simp only [if_neg h32]
        exact ⟨_, audioDataInit_preserving hg _ _ _ rfl,
          goodShape_rebuild hg _ _ _ rfl⟩

lemma npAstypeInt16_length (xs : List ℚ) :
    (npAstypeInt16 xs).length = xs.length := by
  rw [npAstypeInt16, List.length_map]

lemma to_int16_good {a : AudioData} (hg : goodShape a) :
    ∃ b, a.to_int16 = .ok b ∧ goodShape b := by
  rw [AudioData.to_int16]
  by_cases h16 : a.samples.dtype = .i16
  · exact ⟨a, by rw [if_pos h16], hg⟩
  · rw [if_neg h16]
    by_cases hf : a.samples.dtype = .f32 ∨ a.samples.dtype = .f64
    · rw [if_pos hf]
      exact ⟨_, audioDataInit_preserving hg _ _ _
          (by rw [npAstypeInt16_length]; simp),
        goodShape_rebuild hg _ _ _ (by rw [npAstypeInt16_length]; simp)⟩
    · rw [if_neg hf]
      exact ⟨_, audioDataInit_preserving hg _ _ _ (npAstypeInt16_length _),
        goodShape_rebuild hg _ _ _ (npAstypeInt16_length _)⟩

lemma to_int16_float_eq {a : AudioData} (hg : goodShape a)
    (hdt : a.samples.dtype = .f32) :
    a.to_int16 = .ok ⟨⟨a.samples.shape,
      npAstypeInt16 ((a.samples.data.map clipUnit).map (· * 32767)), .i16⟩,
      a.sample_rate, a.channels⟩ := by
  rw [AudioData.to_int16, if_neg (by rw [hdt]; intro hc; cases hc),
    if_pos (Or.inl hdt)]
  exact audioDataInit_preserving hg _ _ _ (by rw [npAstypeInt16_length]; simp)

lemma splitRows_length (n c : ℕ) (xs : List ℚ) :
    (splitRows n c xs).length = n := by
  rw [splitRows, List.length_map, List.length_range]

lemma audioDataInit_1d_ok (n : ℕ) (d : List ℚ) (dt : DType) (r : ℕ) :
    audioDataInit ⟨[n], d, dt⟩ r 1 = .ok ⟨⟨[n], d, dt⟩, r, 1⟩ := rfl

lemma to_mono_good {a : AudioData} (hg : goodShape a) :
    ∃ b, a.to_mono = .ok b ∧ goodShape b := by
  rw [AudioData.to_mono]
  by_cases hch : a.channels = 1
  · exact ⟨a, by rw [if_pos hch], hg⟩
  · rw [if_neg hch]
    rcases hg with ⟨_, hc1⟩ | ⟨n, hsh, hlen⟩
    · exact absurd hc1 hch
    · have hnd : a.samples.ndim = 2 := by rw [NpArray.ndim, hsh]; rfl
      rw [if_pos hnd]
      simp only [hsh, List.drop_one, List.tail_cons, List.headD_cons]
      refine ⟨_, audioDataInit_1d_ok n _ _ _, ?_⟩
      refine Or.inl ⟨?_, rfl⟩
      simp [splitRows_length]

lemma list_sessions_false_eq (m : SessionManager) :
    m.list_sessions false = m.enumerator.sessions.map convSession := by
  rw [SessionManager.list_sessions, SessionEnumerator.enumerate_sessions]
  have h := foldl_append_if convSession
    (fun raw => !false || (convSession raw).is_active)
    m.enumerator.sessions []
  simp only [Bool.not_false, Bool.true_or] at h ⊢
  rw [h, List.filter_true, List.nil_append]

lemma find_session_eq (m : SessionManager) (name : List Char) :
    m.find_session name
      = (m.enumerator.sessions.find? (nameMatch name)).map convSession := by
  rw [SessionManager.find_session, list_sessions_false_eq, List.find?_map]
  rfl

lemma find_session_none_iff (m : SessionManager) (name : List Char) :
    m.find_session name = none
      ↔ ∀ raw ∈ m.enumerator.sessions, nameMatch name raw = false := by
  rw [find_session_eq]
  constructor
  · intro h raw hm
    have : m.enumerator.sessions.find? (nameMatch name) = none := by
      cases hf : m.enumerator.sessions.find? (nameMatch name) with
      | none => rfl
      | some x => rw [hf] at h; cases h
    have := List.find?_eq_none.mp this raw hm
    simpa using this
  · intro h
    rw [List.find?_eq_none.mpr (fun x hx => by simp [h x hx])]
    rfl

lemma find_session_some_split (m : SessionManager) (name : List Char)
    {s : AudioSession} (h : m.find_session name = some s) :
    ∃ l₁ raw l₂, m.enumerator.sessions = l₁ ++ raw :: l₂
      ∧ (∀ u ∈ l₁, nameMatch name u = false)
      ∧ nameMatch name raw = true ∧ convSession raw = s := by
  rw [find_session_eq] at h
  cases hf : m.enumerator.sessions.find? (nameMatch name) with
  | none => rw [hf] at h; cases h
  | some raw =>
    rw [hf] at h
    obtain ⟨l₁, l₂, hl, hfalse, hp⟩ := find?_eq_some_split hf
    exact ⟨l₁, raw, l₂, hl, hfalse, hp, Option.some.inj h⟩

lemma find_session_some_pid (m : SessionManager) (name : List Char)
    {s : AudioSession} (h : m.find_session name = some s) :
    ∃ raw ∈ m.enumerator.sessions, raw.process_id = s.process_id := by
  obtain ⟨l₁, raw, l₂, hl, _, _, hc⟩ := find_session_some_split m name h
  exact ⟨raw, by rw [hl]; simp, by rw [← hc]; rfl⟩

lemma setFirstVolume_any (l : List RawSession) (pid : ℕ) (v : ℚ) :
    (setFirstVolume l pid v).2 = l.any (fun s => s.process_id == pid) := by
  induction l with
  | nil => rfl
  | cons x t ih =>
    by_cases hx : x.process_id = pid
    · simp [setFirstVolume, hx]
    · simp [setFirstVolume, hx, ih]

lemma setFirstMute_any (l : List RawSession) (pid : ℕ) (mu : Bool) :
    (setFirstMute l pid mu).2 = l.any (fun s => s.process_id == pid) := by
  induction l with
  | nil => rfl
  | cons x t ih =>
    by_cases hx : x.process_id = pid
    · simp [setFirstMute, hx]
    · simp [setFirstMute, hx, ih]

lemma setFirstMute_volumes (l : List RawSession) (pid : ℕ) (mu : Bool) :
    (setFirstMute l pid mu).1.map (fun s => s.volume)
      = l.map (fun s => s.volume) := by
  induction l with
  | nil => rfl
  | cons x t ih =>
    by_cases hx : x.process_id = pid
    · simp [setFirstMute, hx]
    · simp [setFirstMute, hx, ih]

lemma setFirstVolume_split (l₁ : List RawSession) (t : RawSession)
    (l₂ : List RawSession) (pid : ℕ) (v : ℚ)
    (h1 : ∀ u ∈ l₁, u.process_id ≠ pid) (h2 : t.process_id = pid) :
    setFirstVolume (l₁ ++ t :: l₂) pid v
      = (l₁ ++ { t with volume := clamp01 v } :: l₂, true) := by
  induction l₁ with
  | nil => simp [setFirstVolume, h2]
  | cons x r ih =>
    have hx : x.process_id ≠ pid := h1 x (by simp)
    have hr := ih (fun u hu => h1 u (by simp [hu]))
    simp [setFirstVolume, hx, hr]

lemma setFirstMute_split (l₁ : List RawSession) (t : RawSession)
    (l₂ : List RawSession) (pid : ℕ) (mu : Bool)
    (h1 : ∀ u ∈ l₁, u.process_id ≠ pid) (h2 : t.process_id = pid) :
    setFirstMute (l₁ ++ t :: l₂) pid mu
      = (l₁ ++ { t with muted := mu } :: l₂, true) := by
  induction l₁ with
  | nil => simp [setFirstMute, h2]
  | cons x r ih =>
    have hx : x.process_id ≠ pid := h1 x (by simp)
    have hr := ih (fun u hu => h1 u (by simp [hu]))
    simp [setFirstMute, hx, hr]

lemma recordCollect_eq (chunks : List QChunk) :
    recordCollect chunks
      = (chunks.filter (fun c => !c.silent)).map (fun c => c.rows) := by
  rw [recordCollect]
  have : ∀ (l : List QChunk) (acc : List (List (List ℚ))),
      l.foldl (fun acc c => if c.silent then acc else acc ++ [c.rows]) acc
        = acc ++ (l.filter (fun c => !c.silent)).map (fun c => c.rows) := by
    intro l
    induction l with
    | nil => simp
    | cons x t ih =>
      intro acc
      by_cases hx : x.silent
      · simp [List.filter_cons, hx, ih]
      · simp [List.filter_cons, hx, ih]
  rw [this]
  simp

lemma sum_lengths_of_width_two {l : List (List ℚ)}
    (h : ∀ r ∈ l, r.length = 2) : (l.map List.length).sum = 2 * l.length := by
  induction l with
  | nil => simp
  | cons x t ih =>
    simp only [List.map_cons, List.sum_cons, List.length_cons]
    rw [h x (by simp), ih (fun r hr => h r (by simp [hr]))]
    ring

lemma collected_flat_length (chunks : List QChunk)
    (h2 : ∀ c ∈ chunks, ∀ row ∈ c.rows, row.length = 2) :
    (((recordCollect chunks).map List.flatten).flatten).length
      = 2 * nonSilentFrames chunks := by
  rw [recordCollect_eq, nonSilentFrames]
  induction chunks with
  | nil => simp
  | cons x t ih =>
    have ht := ih (fun c hc => h2 c (by simp [hc]))
    by_cases hx : x.silent
    · simp only [List.filter_cons, hx]
      simpa using ht
    · simp only [List.filter_cons, hx]
      simp only [Bool.not_false, if_true, List.map_cons, List.flatten_cons,
        List.length_append, List.sum_cons]
      rw [ht, List.length_flatten,
        sum_lengths_of_width_two (fun r hr => h2 x (by simp) r hr)]
      ring

lemma from_interleaved_stereo (d : List ℚ) (dt : DType) (r : ℕ) :
    AudioData.from_interleaved d dt r 2
      = .ok ⟨⟨[(d.length - d.length % 2) / 2, 2],
          if d.length % 2 = 0 then d else d.take (d.length - d.length % 2),
          dt⟩, r, 2⟩ := by
  rw [AudioData.from_interleaved, audioDataInit]
  simp

/-- A two-chunk endpoint production: one audible stereo frame followed by
one gap-synthesized silent stereo frame. -/
def cexChunks : List QChunk := [⟨[[0, 0]], false⟩, ⟨[[0, 0]], true⟩]

/-- A directory with one firefox session at full volume. -/
def demoSessions : SessionManager :=
  ⟨⟨[⟨10, "firefox".toList, [], 1, 1, false⟩]⟩⟩

/-- A queue capture that started, buffered one stereo frame, and has not
been stopped yet. -/
def bufferedCapture : QueueBasedStreamingCapture :=
  { QueueBasedStreamingCapture.init with
      capture := some ⟨true, [], 1, 0, 0⟩, audio_buffer := [[[0, 0]]] }

lemma to_interleaved_data (a : AudioData) :
    a.to_interleaved = a.samples.data := by
  rw [AudioData.to_interleaved]
  split_ifs <;> rfl

lemma set_session_volume_eq (e : SessionEnumerator) (pid : ℕ) (v : ℚ) :
    e.set_session_volume pid v
      = (⟨(setFirstVolume e.sessions pid v).1⟩,
         (setFirstVolume e.sessions pid v).2) := rfl

lemma set_session_mute_eq (e : SessionEnumerator) (pid : ℕ) (mu : Bool) :
    e.set_session_mute pid mu
      = (⟨(setFirstMute e.sessions pid mu).1⟩,
         (setFirstMute e.sessions pid mu).2) := rfl

/-- C2: for every floating-point sample serialized to the 16-bit PCM
container, the written value is the sample saturated to [-1, 1], scaled by
32767 and truncated, hence lies in [-32767, 32767]; the
`convert_float32_to_int16` utility computes the same per-sample value. -/
theorem int16_serialization_saturates (s : NpArray) (r c : ℕ) (a : AudioData)
    (hdt : s.dtype = .f32) (hw : s.wf)
    (ha : audioDataInit s r c = .ok a) :
    (∃ w, a.save = .ok w
      ∧ w.frames = a.samples.data.map
          (fun x => ((ratTrunc (max (-1) (min 1 x) * 32767) : ℤ) : ℚ))
      ∧ ∀ y ∈ w.frames, -32767 ≤ y ∧ y ≤ 32767)
    ∧ convert_float32_to_int16 a.samples.data
        = a.samples.data.map (fun x => ratTrunc (max (-1) (min 1 x) * 32767)) := by
  have hg := audioDataInit_ok_good hw ha
  have hadt : a.samples.dtype = .f32 := by
    rw [audioDataInit_ok_dtype ha, hdt]
  have hint := to_int16_float_eq hg hadt
  constructor
  · refine ⟨⟨a.channels, 2, a.sample_rate, npAstypeInt16
        ((a.samples.data.map clipUnit).map (· * 32767))⟩, ?_, ?_, ?_⟩
    · rw [AudioData.save, hint]
      show Except.ok _ = Except.ok _
      congr 1
      rw [to_interleaved_data]
      split_ifs <;> rfl
    · exact npAstypeInt16_scaled_clip a.samples.data
    · intro y hy
      rw [npAstypeInt16_scaled_clip] at hy
      obtain ⟨x, _, hx⟩ := List.mem_map.mp hy
      have hb := ratTrunc_bound (x := max (-1) (min 1 x))
        (by rw [← clipUnit_eq_clamp]; exact clipUnit_abs_le x)
      rw [← hx]
      exact ⟨by exact_mod_cast hb.1, by exact_mod_cast hb.2⟩
  · exact convert_float32_to_int16_eq a.samples.data

/-- C3 counterexample: with a matching session present, `set_volume` at
the out-of-range volume 2 raises ValueError instead of clamping and
returning whether a session matched. -/
theorem set_volume_out_of_range_raises :
    demoSessions.set_volume "fire".toList 2 = .error .valueError
    ∧ (demoSessions.find_session "fire".toList).isSome = true := by
  exact ⟨by decide, by decide⟩

/-- C3 as amended: `set_volume` validates instead of clamping - a volume
outside [0, 1] raises ValueError; a volume within [0, 1] is applied
unchanged to the first session whose process id matches the name lookup,
and the call returns whether a matching session existed. -/
theorem set_volume_validates (m : SessionManager) (name : List Char) (v : ℚ) :
    (¬ (0 ≤ v ∧ v ≤ 1) → m.set_volume name v = .error .valueError)
    ∧ ((0 ≤ v ∧ v ≤ 1) →
        ∃ m', m.set_volume name v = .ok (m', (m.find_session name).isSome)
          ∧ ∀ s, m.find_session name = some s →
              ∃ l₁ t l₂, m.enumerator.sessions = l₁ ++ t :: l₂
                ∧ (∀ u ∈ l₁, u.process_id ≠ s.process_id)
                ∧ t.process_id = s.process_id
                ∧ m'.enumerator.sessions
                    = l₁ ++ { t with volume := v } :: l₂) := by
  constructor
  · intro h
    rw [SessionManager.set_volume, if_neg h]
  · intro hv
    cases hf : m.find_session name with
    | none =>
      refine ⟨m, ?_, ?_⟩
      · rw [SessionManager.set_volume, if_pos hv, hf]
        rfl
      · intro s hs
        cases hs
    | some s =>
      obtain ⟨raw, hmem, hpid⟩ := find_session_some_pid m name hf
      obtain ⟨l₁, t, l₂, hl, hfalse, hp⟩ :=
        exists_first_split (fun u => u.process_id == s.process_id)
          m.enumerator.sessions ⟨raw, hmem, by simpa using hpid⟩
      have hne : ∀ u ∈ l₁, u.process_id ≠ s.process_id := by
        intro u hu
        have := hfalse u hu
        simpa using this
      have hsplit := setFirstVolume_split l₁ t l₂ s.process_id v hne
        (by simpa using hp)
      have hclamp : clamp01 v = v := by
        rw [clamp01, min_eq_right hv.2, max_eq_right hv.1]
      rw [hclamp] at hsplit
      refine ⟨⟨⟨l₁ ++ { t with volume := v } :: l₂⟩⟩, ?_, ?_⟩
      · rw [SessionManager.set_volume, if_pos hv, hf]
        show Except.ok
          ((⟨(m.enumerator.set_session_volume s.process_id v).1⟩ : SessionManager),
            (m.enumerator.set_session_volume s.process_id v).2) = _
        rw [set_session_volume_eq, hl, hsplit]
        rfl
      · intro s' hs'
        have hss : s = s' := Option.some.inj (hf ▸ hs')
        subst hss
        exact ⟨l₁, t, l₂, hl, hne, by simpa using hp, rfl⟩

lemma set_mute_snd (m : SessionManager) (name : List Char) (mu : Bool) :
    (m.set_mute name mu).2 = (m.find_session name).isSome := by
  cases hf : m.find_session name with
  | none => rw [SessionManager.set_mute, hf]; rfl
  | some s =>
    rw [SessionManager.set_mute, hf]
    obtain ⟨raw, hmem, hpid⟩ := find_session_some_pid m name hf
    show (m.enumerator.set_session_mute s.process_id mu).2 = true
    rw [set_session_mute_eq]
    show (setFirstMute m.enumerator.sessions s.process_id mu).2 = true
    rw [setFirstMute_any]
    exact List.any_eq_true.mpr ⟨raw, hmem, by simpa using hpid⟩

lemma set_mute_volumes (m : SessionManager) (name : List Char) (mu : Bool) :
    (m.set_mute name mu).1.enumerator.sessions.map (fun s => s.volume)
      = m.enumerator.sessions.map (fun s => s.volume) := by
  cases hf : m.find_session name with
  | none => rw [SessionManager.set_mute, hf]
  | some s =>
    rw [SessionManager.set_mute, hf]
    exact setFirstMute_volumes m.enumerator.sessions s.process_id mu

/-- C4: `set_mute` (and `mute_app` / `unmute_app` through it) reports
whether a session matched, flips only the distinct mute flag of the first
session with the matched process id, and leaves every session's scalar
volume untouched - so muting and then unmuting preserves the original
volume. -/
theorem set_mute_flag_only (m : SessionManager) (name : List Char)
    (mu : Bool) :
    (m.set_mute name mu).2 = (m.find_session name).isSome
    ∧ (m.set_mute name mu).1.enumerator.sessions.map (fun s => s.volume)
        = m.enumerator.sessions.map (fun s => s.volume)
    ∧ (∀ s, m.find_session name = some s →
        ∃ l₁ t l₂, m.enumerator.sessions = l₁ ++ t :: l₂
          ∧ (∀ u ∈ l₁, u.process_id ≠ s.process_id)
          ∧ t.process_id = s.process_id
          ∧ (m.set_mute name mu).1.enumerator.sessions
              = l₁ ++ { t with muted := mu } :: l₂)
    ∧ (unmute_app (mute_app m name).1 name).1.enumerator.sessions.map
          (fun s => s.volume)
        = m.enumerator.sessions.map (fun s => s.volume) := by
  refine ⟨set_mute_snd m name mu, set_mute_volumes m name mu, ?_, ?_⟩
  · intro s hf
    obtain ⟨raw, hmem, hpid⟩ := find_session_some_pid m name hf
    obtain ⟨l₁, t, l₂, hl, hfalse, hp⟩ :=
      exists_first_split (fun u => u.process_id == s.process_id)
        m.enumerator.sessions ⟨raw, hmem, by simpa using hpid⟩
    have hne : ∀ u ∈ l₁, u.process_id ≠ s.process_id := by
      intro u hu
      have := hfalse u hu
      simpa using this
    have hsplit := setFirstMute_split l₁ t l₂ s.process_id mu hne
      (by simpa using hp)
    refine ⟨l₁, t, l₂, hl, hne, by simpa using hp, ?_⟩
    rw [SessionManager.set_mute, hf]
    show (m.enumerator.set_session_mute s.process_id mu).1.sessions = _
    rw [set_session_mute_eq]
    show (setFirstMute m.enumerator.sessions s.process_id mu).1 = _
    rw [hl, hsplit]
  · rw [unmute_app, mute_app]
    rw [set_mute_volumes, set_mute_volumes]

/-- C1 counterexample: over an interval in which the endpoint produced two
stereo frames, one of them as a gap-synthesized silent chunk, the
high-level record path delivers only one frame - the silent chunk is
discarded, so the delivered total differs from the produced total. -/
theorem record_path_drops_silent_cex :
    (recordWithLoopback cexChunks).map AudioData.num_frames
        ≠ some (producedFrames cexChunks)
    ∧ (recordWithLoopback cexChunks).map AudioData.num_frames = some 1
    ∧ (captureAudio cexChunks).map AudioData.num_frames = some 1
    ∧ producedFrames cexChunks = 2
    ∧ cexChunks.any (fun c => c.silent) = true := by
  exact ⟨by decide, by decide, by decide, by decide, by decide⟩

/-- C1 as amended: the record path discards silent chunks, so the total
frame count delivered to the consumer equals the frame count of the
non-silent chunks only - the endpoint-produced total minus the
gap-synthesized silent frames (`_capture_audio` returns an empty container
when nothing non-silent arrived, `_record_with_loopback` returns None). -/
theorem record_path_delivers_nonsilent_frames (chunks : List QChunk)
    (h2 : ∀ c ∈ chunks, ∀ row ∈ c.rows, row.length = 2) :
    (∃ a, captureAudio chunks = some a
        ∧ a.num_frames = nonSilentFrames chunks)
    ∧ (recordCollect chunks ≠ [] →
        ∃ a, recordWithLoopback chunks = some a
          ∧ a.num_frames = nonSilentFrames chunks)
    ∧ (recordCollect chunks = [] → recordWithLoopback chunks = none) := by
  have hflat := collected_flat_length chunks h2
  by_cases hemp : recordCollect chunks = []
  · have hns : chunks.filter (fun c => !c.silent) = [] := by
      have h := recordCollect_eq chunks
      rw [hemp] at h
      exact List.map_eq_nil_iff.mp h.symm
    have hzero : nonSilentFrames chunks = 0 := by
      rw [nonSilentFrames, hns]
      rfl
    refine ⟨⟨⟨⟨[0, 2], [], .f64⟩, 48000, 2⟩, ?_, by rw [hzero]; rfl⟩,
      fun hne => absurd hemp hne, fun _ => ?_⟩
    · rw [captureAudio, hemp]
      rfl
    · rw [recordWithLoopback, hemp]
      rfl
  · have key : ∃ a, AudioData.from_interleaved
        (((recordCollect chunks).map List.flatten).flatten) .f32 48000 2
          = .ok a ∧ a.num_frames = nonSilentFrames chunks := by
      rw [from_interleaved_stereo]
      refine ⟨_, rfl, ?_⟩
      rw [AudioData.num_frames]
      rw [if_neg (by rw [NpArray.ndim]; simp)]
      rw [List.headD_cons]
      omega
    obtain ⟨a, hok, hnf⟩ := key
    have hne : (recordCollect chunks).isEmpty = false := by
      cases hc : recordCollect chunks with
      | nil => exact absurd hc hemp
      | cons x t => rfl
    refine ⟨⟨a, ?_, hnf⟩, fun _ => ⟨a, ?_, hnf⟩, fun he => absurd he hemp⟩
    · rw [captureAudio, hne]
      show (match AudioData.from_interleaved
          (((recordCollect chunks).map List.flatten).flatten) .f32 48000 2 with
        | .ok a => some a
        | .error _ => none) = some a
      rw [hok]
    · rw [recordWithLoopback, hne]
      show (match AudioData.from_interleaved
          (((recordCollect chunks).map List.flatten).flatten) .f32 48000 2 with
        | .ok a => some a
        | .error _ => none) = some a
      rw [hok]

lemma emptyAudio_ok (r : AudioRecorder) :
    r.emptyAudio
      = .ok ⟨⟨[0, r.channels], [], .f32⟩, r.sample_rate, r.channels⟩ := by
  rw [AudioRecorder.emptyAudio, audioDataInit]
  simp

lemma recorder_stop_eq (r : AudioRecorder) :
    r.stop = if ¬ r.recording_thread ∧ ¬ r.loopback
      then .ok (r, .audio ⟨⟨[0, r.channels], [], .f32⟩,
          r.sample_rate, r.channels⟩)
      else .ok (r.cleanup, .rawBuffer r.audio_buffer) := by
  rw [AudioRecorder.stop]
  by_cases h : ¬ r.recording_thread ∧ ¬ r.loopback
  · rw [if_pos h, if_pos h, emptyAudio_ok]
    rfl
  · rw [if_neg h, if_neg h]

lemma stateAfterStop_eq (r : AudioRecorder) :
    r.stateAfterStop
      = if ¬ r.recording_thread ∧ ¬ r.loopback then r else r.cleanup := by
  rw [AudioRecorder.stateAfterStop, recorder_stop_eq]
  by_cases h : ¬ r.recording_thread ∧ ¬ r.loopback
  · rw [if_pos h, if_pos h]
  · rw [if_neg h, if_neg h]

/-- C5: the claim fails on the code - the recorder's stop is idempotent on
its state, but a second stop on a queue-based streaming capture that
stopped successfully once raises AttributeError, because the stop path
calls the undefined `AudioData.create_empty` when no backend is
attached. -/
theorem stop_second_call_raises :
    (∀ r : AudioRecorder, r.stateAfterStop.stateAfterStop = r.stateAfterStop)
    ∧ (bufferedCapture.stop).isOk = true
    ∧ (bufferedCapture.stop).toOption.map
        (fun p => QueueBasedStreamingCapture.stop p.1)
      = some (.error .attributeError) := by
  refine ⟨?_, by decide, by decide⟩
  intro r
  rw [stateAfterStop_eq r]
  by_cases h : ¬ r.recording_thread ∧ ¬ r.loopback
  · rw [if_pos h, stateAfterStop_eq, if_pos h]
  · rw [if_neg h, stateAfterStop_eq,
      if_pos (by rw [AudioRecorder.cleanup]; exact ⟨by simp, by simp⟩)]

/-- C6: the claim fails on the code - the recorder's stop always returns
and leaves not-recording, but stop on a never-started queue-based
streaming capture raises AttributeError, because `AudioData.create_empty`
does not exist anywhere in the repository. -/
theorem stop_on_fresh_capture_raises :
    (∀ r : AudioRecorder, (r.is_recording = true → r.recording_thread = true)
      → (r.stop).isOk = true ∧ r.stateAfterStop.is_recording = false)
    ∧ QueueBasedStreamingCapture.init.stop = .error .attributeError := by
  refine ⟨?_, by decide⟩
  intro r hinv
  rw [recorder_stop_eq, stateAfterStop_eq]
  by_cases h : ¬ r.recording_thread ∧ ¬ r.loopback
  · rw [if_pos h, if_pos h]
    refine ⟨rfl, ?_⟩
    cases hrec : r.is_recording
    · rfl
    · exact absurd (hinv hrec) (by simpa using h.1)
  · rw [if_neg h, if_neg h]
    exact ⟨rfl, rfl⟩

/-- C7: each name-based lookup works off one enumeration snapshot -
`find_session` returns exactly the first session whose lowered process
name contains the lowered query; on a miss `get_volume` and `is_muted`
return None while `set_volume` and `set_mute` return False; on a hit the
reads return the matched session's fields and the writes apply the native
pid-based setter of the matched session's process id and return True. -/
theorem name_lookup_first_match (m : SessionManager) (name : List Char)
    (v : ℚ) (mu : Bool) (hv : 0 ≤ v ∧ v ≤ 1) :
    (∀ s, m.find_session name = some s →
        ∃ l₁ raw l₂, m.enumerator.sessions = l₁ ++ raw :: l₂
          ∧ (∀ u ∈ l₁, nameMatch name u = false)
          ∧ nameMatch name raw = true ∧ convSession raw = s)
    ∧ (m.find_session name = none →
        (∀ raw ∈ m.enumerator.sessions, nameMatch name raw = false)
        ∧ m.get_volume name = none ∧ m.is_muted name = none
        ∧ m.set_volume name v = .ok (m, false)
        ∧ m.set_mute name mu = (m, false))
    ∧ (∀ s, m.find_session name = some s →
        m.get_volume name = some s.volume ∧ m.is_muted name = some s.muted
        ∧ m.set_volume name v
            = .ok (⟨(m.enumerator.set_session_volume s.process_id v).1⟩, true)
        ∧ m.set_mute name mu
            = (⟨(m.enumerator.set_session_mute s.process_id mu).1⟩, true)) := by
  refine ⟨fun s hs => find_session_some_split m name hs, ?_, ?_⟩
  · intro hf
    refine ⟨(find_session_none_iff m name).mp hf, ?_, ?_, ?_, ?_⟩
    · rw [SessionManager.get_volume, hf]
    · rw [SessionManager.is_muted, hf]
    · rw [SessionManager.set_volume, if_pos hv, hf]
    · rw [SessionManager.set_mute, hf]
  · intro s hf
    have hsnd : (m.enumerator.set_session_volume s.process_id v).2 = true := by
      obtain ⟨raw, hmem, hpid⟩ := find_session_some_pid m name hf
      rw [set_session_volume_eq]
      show (setFirstVolume m.enumerator.sessions s.process_id v).2 = true
      rw [setFirstVolume_any]
      exact List.any_eq_true.mpr ⟨raw, hmem, by simpa using hpid⟩
    have hsnd' : (m.enumerator.set_session_mute s.process_id mu).2 = true := by
      obtain ⟨raw, hmem, hpid⟩ := find_session_some_pid m name hf
      rw [set_session_mute_eq]
      show (setFirstMute m.enumerator.sessions s.process_id mu).2 = true
      rw [setFirstMute_any]
      exact List.any_eq_true.mpr ⟨raw, hmem, by simpa using hpid⟩
    refine ⟨?_, ?_, ?_, ?_⟩
    · rw [SessionManager.get_volume, hf]
    · rw [SessionManager.is_muted, hf]
    · rw [SessionManager.set_volume, if_pos hv, hf]
      show Except.ok
        ((⟨(m.enumerator.set_session_volume s.process_id v).1⟩ : SessionManager),
          (m.enumerator.set_session_volume s.process_id v).2) = _
      rw [hsnd]
    · rw [SessionManager.set_mute, hf]
      show ((⟨(m.enumerator.set_session_mute s.process_id mu).1⟩ : SessionManager),
          (m.enumerator.set_session_mute s.process_id mu).2) = _
      rw [hsnd']

/-- C8: every AudioData accepted by the constructor satisfies the
interleaved-length invariant, interleaved length = frames times channels,
and each of `to_float32`, `to_int16` and `to_mono` succeeds on it and
preserves the invariant. -/
theorem interleaved_length_invariant (s : NpArray) (r c : ℕ)
    (a : AudioData) (hw : s.wf) (h : audioDataInit s r c = .ok a) :
    a.to_interleaved.length = a.num_frames * a.channels
    ∧ (∃ b, a.to_float32 = .ok b
        ∧ b.to_interleaved.length = b.num_frames * b.channels)
    ∧ (∃ b, a.to_int16 = .ok b
        ∧ b.to_interleaved.length = b.num_frames * b.channels)
    ∧ (∃ b, a.to_mono = .ok b
        ∧ b.to_interleaved.length = b.num_frames * b.channels) := by
  have hg := audioDataInit_ok_good hw h
  refine ⟨goodShape_interleaved hg, ?_, ?_, ?_⟩
  · obtain ⟨b, hb, hgb⟩ := to_float32_good hg
    exact ⟨b, hb, goodShape_interleaved hgb⟩
  · obtain ⟨b, hb, hgb⟩ := to_int16_good hg
    exact ⟨b, hb, goodShape_interleaved hgb⟩
  · obtain ⟨b, hb, hgb⟩ := to_mono_good hg
    exact ⟨b, hb, goodShape_interleaved hgb⟩

/-- C9 counterexample: a mono int16 AudioData stored as a (1, 1) column
array saves and loads back as the 1-D array of the same values, which the
shape-sensitive equality of AudioData rejects - so save/load is not the
identity on every int16 AudioData with one or two channels. -/
theorem wav_roundtrip_column_mono_cex :
    audioDataInit ⟨[1, 1], [5], .i16⟩ 48000 1
        = .ok ⟨⟨[1, 1], [5], .i16⟩, 48000, 1⟩
    ∧ AudioData.save ⟨⟨[1, 1], [5], .i16⟩, 48000, 1⟩ = .ok ⟨1, 2, 48000, [5]⟩
    ∧ AudioData.load ⟨1, 2, 48000, [5]⟩ = .ok ⟨⟨[1], [5], .i16⟩, 48000, 1⟩
    ∧ AudioData.pyEq ⟨⟨[1], [5], .i16⟩, 48000, 1⟩
        ⟨⟨[1, 1], [5], .i16⟩, 48000, 1⟩ = false := by
  exact ⟨by decide, by decide, by decide, by decide⟩

/-- C9 as amended: for int16 audio in the canonical layouts - mono stored
as a 1-D array, or stereo stored as an (n, 2) array - loading after saving
reproduces the original AudioData exactly; only a mono container stored as
an (n, 1) column loses its shape on the round trip. -/
theorem wav_roundtrip_canonical (a : AudioData)
    (hdt : a.samples.dtype = .i16)
    (hsh : (a.channels = 1 ∧ a.samples.shape = [a.samples.data.length])
       ∨ (a.channels = 2 ∧ ∃ n, a.samples.shape = [n, 2]
            ∧ a.samples.data.length = n * 2)) :
    ∃ w, a.save = .ok w ∧ AudioData.load w = .ok a := by
  obtain ⟨⟨sh, dat, dt⟩, rt, ch⟩ := a
  dsimp only at hdt hsh
  subst hdt
  have hsave : AudioData.save ⟨⟨sh, dat, .i16⟩, rt, ch⟩
      = .ok ⟨ch, 2, rt, dat⟩ := by
    rw [AudioData.save, AudioData.to_int16]
    rw [if_pos rfl]
    show Except.ok _ = Except.ok _
    congr 1
    rw [to_interleaved_data]
    split_ifs <;> rfl
  refine ⟨⟨ch, 2, rt, dat⟩, hsave, ?_⟩
  rcases hsh with ⟨hc, hs⟩ | ⟨hc, n, hs, hl⟩
  · subst hc
    subst hs
    rw [AudioData.load]
    exact audioDataInit_1d_ok dat.length dat .i16 rt
  · subst hc
    subst hs
    rw [AudioData.load]
    show (if dat.length % 2 = 0 then
        audioDataInit ⟨[dat.length / 2, 2], dat, .i16⟩ rt 2
      else Except.error PyErr.valueError) = _
    rw [if_pos (show dat.length % 2 = 0 by omega)]
    rw [show dat.length / 2 = n by omega]
    rfl

/-- C10: `adjust_volume` returns None when no session matches the name,
and otherwise returns the current volume plus the delta clamped into
[0, 1], a value that always lies within [0, 1]. -/
theorem adjust_volume_clamped (m : SessionManager) (name : List Char)
    (delta : ℚ) :
    (m.find_session name = none →
        adjust_volume m name delta = .ok (m, none))
    ∧ ∀ s, m.find_session name = some s →
        ∃ m', adjust_volume m name delta
            = .ok (m', some (max 0 (min 1 (s.volume + delta))))
          ∧ 0 ≤ max 0 (min 1 (s.volume + delta))
          ∧ max 0 (min 1 (s.volume + delta)) ≤ 1 := by
  constructor
  · intro hf
    rw [adjust_volume, SessionManager.get_volume, hf]
  · intro s hf
    have hbound : 0 ≤ max 0 (min 1 (s.volume + delta))
        ∧ max 0 (min 1 (s.volume + delta)) ≤ 1 :=
      ⟨le_max_left _ _, max_le (by norm_num) (min_le_left _ _)⟩
    obtain ⟨m', hok, _⟩ :=
      (set_volume_validates m name (max 0 (min 1 (s.volume + delta)))).2 hbound
    refine ⟨m', ?_, hbound.1, hbound.2⟩
    have hgv : m.get_volume name = some s.volume := by
      rw [SessionManager.get_volume, hf]
    rw [adjust_volume, hgv]
    rw [hf] at hok
    show (match m.set_volume name (max 0 (min 1 (s.volume + delta))) with
      | Except.error e => Except.error e
      | Except.ok (m', b) =>
          Except.ok (m', if b = true
            then some (max 0 (min 1 (s.volume + delta))) else none)) = _
    rw [hok]
    rfl

/-- Witness for the amended C1 theorem at the two-chunk input. -/
theorem record_path_delivers_nonsilent_frames_witness :
    (∃ a, captureAudio cexChunks = some a
        ∧ a.num_frames = nonSilentFrames cexChunks)
    ∧ (∃ a, recordWithLoopback cexChunks = some a
        ∧ a.num_frames = nonSilentFrames cexChunks) := by
  obtain ⟨h1, h2, _⟩ :=
    record_path_delivers_nonsilent_frames cexChunks (by decide)
  exact ⟨h1, h2 (by decide)⟩

/-- Witness for the C2 theorem at a concrete two-sample mono buffer. -/
theorem int16_serialization_saturates_witness :
    (∃ w, (⟨⟨[2], [1, 0], .f32⟩, 48000, 1⟩ : AudioData).save = .ok w
      ∧ w.frames = ([1, 0] : List ℚ).map
          (fun x => ((ratTrunc (max (-1) (min 1 x) * 32767) : ℤ) : ℚ))
      ∧ ∀ y ∈ w.frames, -32767 ≤ y ∧ y ≤ 32767)
    ∧ convert_float32_to_int16 ([1, 0] : List ℚ)
        = ([1, 0] : List ℚ).map
            (fun x => ratTrunc (max (-1) (min 1 x) * 32767)) :=
  int16_serialization_saturates ⟨[2], [1, 0], .f32⟩ 48000 1
    ⟨⟨[2], [1, 0], .f32⟩, 48000, 1⟩ rfl (by decide) (by decide)

/-- Witness for the amended C3 theorem at the in-range volume 1. -/
theorem set_volume_validates_witness :
    ∃ m', demoSessions.set_volume "fire".toList 1
        = .ok (m', (demoSessions.find_session "fire".toList).isSome)
      ∧ ∀ s, demoSessions.find_session "fire".toList = some s →
          ∃ l₁ t l₂, demoSessions.enumerator.sessions = l₁ ++ t :: l₂
            ∧ (∀ u ∈ l₁, u.process_id ≠ s.process_id)
            ∧ t.process_id = s.process_id
            ∧ m'.enumerator.sessions
                = l₁ ++ { t with volume := 1 } :: l₂ :=
  (set_volume_validates demoSessions "fire".toList 1).2 (by decide)

/-- Witness for the C4 theorem at the demo directory. -/
theorem set_mute_flag_only_witness :
    (demoSessions.set_mute "fire".toList true).2
        = (demoSessions.find_session "fire".toList).isSome
    ∧ ∃ l₁ t l₂, demoSessions.enumerator.sessions = l₁ ++ t :: l₂
        ∧ (∀ u ∈ l₁, u.process_id ≠ 10)
        ∧ t.process_id = 10
        ∧ (demoSessions.set_mute "fire".toList true).1.enumerator.sessions
            = l₁ ++ { t with muted := true } :: l₂ :=
  ⟨(set_mute_flag_only demoSessions "fire".toList true).1,
   (set_mute_flag_only demoSessions "fire".toList true).2.2.1
     (⟨10, "firefox".toList, [], 1, 1, false⟩ : AudioSession) (by decide)⟩

/-- Witness for the C6 theorem at a freshly initialized recorder. -/
theorem stop_on_fresh_capture_raises_witness :
    ((AudioRecorder.init 48000 2).stop).isOk = true
    ∧ (AudioRecorder.init 48000 2).stateAfterStop.is_recording = false :=
  stop_on_fresh_capture_raises.1 (AudioRecorder.init 48000 2) (by decide)

/-- Witness for the C7 theorem at the demo directory. -/
theorem name_lookup_first_match_witness :
    demoSessions.get_volume "fire".toList = some 1
    ∧ demoSessions.is_muted "fire".toList = some false
    ∧ demoSessions.set_volume "fire".toList 1
        = .ok (⟨(demoSessions.enumerator.set_session_volume 10 1).1⟩, true)
    ∧ demoSessions.set_mute "fire".toList true
        = (⟨(demoSessions.enumerator.set_session_mute 10 true).1⟩, true) := by
  have h := (name_lookup_first_match demoSessions "fire".toList 1 true
      (by decide)).2.2
    (⟨10, "firefox".toList, [], 1, 1, false⟩ : AudioSession) (by decide)
  exact ⟨h.1, h.2.1, h.2.2.1, h.2.2.2⟩

/-- Witness for the C8 theorem at a concrete two-frame stereo buffer. -/
theorem interleaved_length_invariant_witness :
    (⟨⟨[2, 2], [1, 0, 0, 1], .f32⟩, 48000, 2⟩ : AudioData).to_interleaved.length
        = (⟨⟨[2, 2], [1, 0, 0, 1], .f32⟩, 48000, 2⟩ : AudioData).num_frames
          * (⟨⟨[2, 2], [1, 0, 0, 1], .f32⟩, 48000, 2⟩ : AudioData).channels
    ∧ ∃ b, (⟨⟨[2, 2], [1, 0, 0, 1], .f32⟩, 48000, 2⟩ : AudioData).to_mono
          = .ok b
        ∧ b.to_interleaved.length = b.num_frames * b.channels := by
  have h := interleaved_length_invariant ⟨[2, 2], [1, 0, 0, 1], .f32⟩ 48000 2
    ⟨⟨[2, 2], [1, 0, 0, 1], .f32⟩, 48000, 2⟩ (by decide) (by decide)
  exact ⟨h.1, h.2.2.2⟩

/-- Witness for the amended C9 theorem at a one-frame stereo buffer. -/
theorem wav_roundtrip_canonical_witness :
    ∃ w, (⟨⟨[1, 2], [3, 4], .i16⟩, 48000, 2⟩ : AudioData).save = .ok w
      ∧ AudioData.load w = .ok ⟨⟨[1, 2], [3, 4], .i16⟩, 48000, 2⟩ :=
  wav_roundtrip_canonical ⟨⟨[1, 2], [3, 4], .i16⟩, 48000, 2⟩ rfl
    (Or.inr ⟨rfl, 1, rfl, rfl⟩)

/-- Witness for the C10 theorem: raising the volume past full stays at 1. -/
theorem adjust_volume_clamped_witness :
    ∃ m', adjust_volume demoSessions "fire".toList 1
        = .ok (m', some (max 0 (min 1 ((1 : ℚ) + 1))))
      ∧ 0 ≤ max 0 (min 1 ((1 : ℚ) + 1))
      ∧ max 0 (min 1 ((1 : ℚ) + 1)) ≤ 1 :=
  (adjust_volume_clamped demoSessions "fire".toList 1).2
    (⟨10, "firefox".toList, [], 1, 1, false⟩ : AudioSession) (by decide)

end PyWAC
